import Mathlib

/-
Verification of the Route53 DNS provider's record-management logic
(custom-domain/dstack-ingress/scripts/dns_providers/route53.py).

Python strings are modelled as lists of characters (`Str`); Python's
truthiness of strings ("" is falsy) and of `None` is rendered explicitly.
Backend calls that can raise are modelled by `Except`-valued parameters:
an `Except.error` argument stands for the backend call raising, and the
operation's `try/except` wrapper is rendered by the operation staying
total and returning `false` on those branches.  Each write operation
returns an `OpResult` recording the boolean result, the list of change
requests actually submitted to the backend, and the updated per-instance
hosted-zone cache.
-/

namespace Route53

/-- Python strings modelled as lists of characters. -/
abbrev Str := List Char

/-- Coerce a Lean string literal into the character-list model. -/
def str (s : String) : Str := s.data

/-- Python `s.endswith(t)`. -/
def strEndsWith (s t : Str) : Bool := decide (t <:+ s)

/-- Python `s.rstrip(".")`: drop all trailing dots. -/
def rstripDot (s : Str) : Str := (s.reverse.dropWhile (fun c => c = '.')).reverse

/-- Python `s.split("/")[-1]`: the segment after the last slash. -/
def lastSlashSeg (s : Str) : Str := (s.reverse.takeWhile (fun c => c ≠ '/')).reverse

/-- Python `s.strip(c)` for a single strip character `c`. -/
def pyStrip (c : Char) (s : Str) : Str :=
  ((s.dropWhile (fun a => a = c)).reverse.dropWhile (fun a => a = c)).reverse

/-- Python `s.isdigit()` (ASCII digits): nonempty and all digits. -/
def pyIsDigit (s : Str) : Bool := decide (s ≠ []) && s.all (fun c => c.isDigit)

/-- Numeric value of a string of ASCII digits, as computed by Python `int`. -/
def digitsToNat (s : Str) : Nat := s.foldl (fun a c => a * 10 + (c.toNat - 48)) 0

/-- Python `int(s)` returning `none` on `ValueError`: an optional sign
followed by at least one ASCII digit, with surrounding spaces stripped. -/
def pyInt (s : Str) : Option Int :=
  let t := ((s.dropWhile (fun c => c = ' ')).reverse.dropWhile (fun c => c = ' ')).reverse
  match t with
  | '-' :: ds => if ds ≠ [] ∧ ds.all Char.isDigit then some (-(Int.ofNat (digitsToNat ds))) else none
  | '+' :: ds => if ds ≠ [] ∧ ds.all Char.isDigit then some (Int.ofNat (digitsToNat ds)) else none
  | ds => if ds ≠ [] ∧ ds.all Char.isDigit then some (Int.ofNat (digitsToNat ds)) else none

/-- Decimal rendering of a natural number (Python f-string of an int). -/
def natStr (n : Nat) : Str := (toString n).data

/-- Decimal rendering of an integer (Python f-string of an int). -/
def intStr (n : Int) : Str := (toString n).data

/-- Python `s.split(c)` on a single-character separator (keeps empty fields;
the empty string splits to one empty field, as in Python). -/
def splitOnChar (c : Char) : Str → List Str
  | [] => [[]]
  | a :: rest =>
    let r := splitOnChar c rest
    if a = c then [] :: r
    else
      match r with
      | [] => [[a]]
      | h :: t => (a :: h) :: t

/-- Split at the first occurrence of `c`, if any. -/
def breakAtChar (c : Char) : Str → Option (Str × Str)
  | [] => none
  | a :: rest =>
    if a = c then some ([], rest)
    else
      match breakAtChar c rest with
      | none => none
      | some (x, y) => some (a :: x, y)

/-- Python `s.split(" ", 2)`: at most two splits on a single space. -/
def pySplitSpace2 (s : Str) : List Str :=
  match breakAtChar ' ' s with
  | none => [s]
  | some (a, rest) =>
    match breakAtChar ' ' rest with
    | none => [a, rest]
    | some (b, rest2) => [a, b, rest2]

/-- The record-type enumeration used by the provider interface. -/
inductive RecordType where
  | A
  | AAAA
  | CNAME
  | TXT
  | MX
  | CAA
  | NS
  | SRV
deriving DecidableEq, Repr

/-- The wire value of a record type (Python `record.type.value`). -/
def RecordType.val : RecordType → Str
  | .A => str "A"
  | .AAAA => str "AAAA"
  | .CNAME => str "CNAME"
  | .TXT => str "TXT"
  | .MX => str "MX"
  | .CAA => str "CAA"
  | .NS => str "NS"
  | .SRV => str "SRV"

/-- Python `RecordType(record_type_str)`, returning `none` on `ValueError`. -/
def RecordType.fromStr (s : Str) : Option RecordType :=
  if s = str "A" then some .A
  else if s = str "AAAA" then some .AAAA
  else if s = str "CNAME" then some .CNAME
  else if s = str "TXT" then some .TXT
  else if s = str "MX" then some .MX
  else if s = str "CAA" then some .CAA
  else if s = str "NS" then some .NS
  else if s = str "SRV" then some .SRV
  else none

/-- A hosted zone entry as the backend lists it: the full `Id` path and the
`Name` with its trailing dot. -/
structure RawZone where
  id : Str
  name : Str
deriving DecidableEq, Repr

/-- A backend resource record set (the fields route53.py reads). -/
structure RRSet where
  name : Str
  typ : Str
  ttl : Option Nat
  values : Option (List Str)
  aliasDNSName : Option Str
  weight : Option Int
  setIdentifier : Option Str
deriving DecidableEq, Repr

/-- One change of a change batch submitted to the backend. -/
structure Change where
  action : Str
  rrset : RRSet
deriving DecidableEq, Repr

/-- The `ChangeInfo` portion of the backend's change response: the optional
`Status` field. -/
structure ChangeInfo where
  status : Option Str
deriving DecidableEq, Repr

/-- The caller-facing DNS record; the open `data` mapping is flattened into
the optional fields the source reads and writes. -/
structure DNSRecord where
  id : Str
  name : Str
  rtype : RecordType
  content : Str
  ttl : Nat
  proxied : Bool
  priority : Option Int
  dataWeight : Option Int
  dataSetIdentifier : Option Str
  dataFlags : Option Int
  dataTag : Option Str
  dataValue : Option Str
deriving DecidableEq, Repr

/-- A request to ensure apex CAA authorization. -/
structure CAARecord where
  name : Str
  flags : Int
  tag : Str
  ttl : Nat
deriving DecidableEq, Repr

/-- The provider instance's hosted-zone cache:
`(hosted_zone_id, hosted_zone_name)`, both initially `None`. -/
abbrev Cache := Option Str × Option Str

/-- Result of a write operation: the returned boolean, the change requests
submitted to the backend during the call, and the updated zone cache. -/
structure OpResult where
  ok : Bool
  changes : List Change
  cache : Cache
deriving DecidableEq, Repr

/-- Result of `_ensure_hosted_zone_id`: the returned id, the updated cache,
and whether the call listed the backend's hosted zones. -/
structure EnsureResult where
  zoneId : Option Str
  cache : Cache
  listedZones : Bool
deriving DecidableEq, Repr

/-- Outcome of the zone scan loop of `_get_hosted_zone_info`: either an
early return on an exact name match, or loop completion with the best
subdomain match found so far. -/
inductive ZoneScan where
  | exactFound (zoneId zoneName : Str)
  | finished (best : Option (Str × Str))
deriving DecidableEq, Repr

/-- Length of the best match's zone name (`best_match_length`, initially 0). -/
def bestLen : Option (Str × Str) → Nat
  | none => 0
  | some (_, n) => n.length

/-- The zone scan of `_get_hosted_zone_info`: exact name match returns
immediately; otherwise a suffix match strictly longer than the best so far
replaces it. -/
def zoneLoop (domain : Str) : List RawZone → Option (Str × Str) → ZoneScan
  | [], best => .finished best
  | z :: rest, best =>
    let zoneName := rstripDot z.name
    let zoneId := lastSlashSeg z.id
    if domain = zoneName then .exactFound zoneId zoneName
    else if strEndsWith domain ('.' :: zoneName) = true ∧ bestLen best < zoneName.length then
      zoneLoop domain rest (some (zoneId, zoneName))
    else zoneLoop domain rest best

/-- `_get_hosted_zone_info`: scan the zone listing; on loop completion the
best match is returned only if its id is truthy (Python `if best_match_id`). -/
def get_hosted_zone_info (domain : Str) (zones : List RawZone) : Option (Str × Str) :=
  match zoneLoop domain zones none with
  | .exactFound zid zname => some (zid, zname)
  | .finished (some (zid, zname)) => if zid = [] then none else some (zid, zname)
  | .finished none => none

/-- `_ensure_hosted_zone_id`: reuse the cached zone when both cached fields
are truthy and the domain is the cached zone or a subdomain of it; otherwise
list zones, update the cache on success, and return the (possibly stale)
`hosted_zone_id` field. -/
def ensure_hosted_zone_id (cache : Cache) (domain : Str) (zones : List RawZone) : EnsureResult :=
  let cachedOk : Bool :=
    match cache with
    | (some zid, some zname) =>
      decide (zid ≠ []) && decide (zname ≠ []) &&
        (decide (domain = zname) || strEndsWith domain ('.' :: zname))
    | _ => false
  if cachedOk then
    { zoneId := cache.1, cache := cache, listedZones := false }
  else
    match get_hosted_zone_info domain zones with
    | some (zid, zname) => { zoneId := some zid, cache := (some zid, some zname), listedZones := true }
    | none => { zoneId := cache.1, cache := cache, listedZones := true }

/-- `_normalize_record_name`: append a trailing dot when missing. -/
def normalize_record_name (name : Str) : Str :=
  if strEndsWith name ['.'] then name else name ++ ['.']

/-- Synthetic record identifier: `"{name}:{type}"`, extended with
`":{set_identifier}"` when routing metadata is present. -/
def makeRecordId (recordName typeStr : Str) (sid : Option Str) : Str :=
  match sid with
  | none => recordName ++ ':' :: typeStr
  | some s => (recordName ++ ':' :: typeStr) ++ ':' :: s

/-- Decoding of a composite record id in `delete_dns_record`: split on `:`;
two fields give (name, type), three give (name, type, set identifier), any
other count is an invalid id. -/
def parseRecordId (recordId : Str) : Option (Str × Str × Option Str) :=
  match splitOnChar ':' recordId with
  | [rname, rtype] => some (rname, rtype, none)
  | [rname, rtype, sid] => some (rname, rtype, some sid)
  | _ => none

/-- Interpretation of the change response in all three write operations:
an exception yields `false`; otherwise success exactly when the reported
status is `PENDING` or `INSYNC`. -/
def changeOk (resp : Except Str ChangeInfo) : Bool :=
  match resp with
  | .error _ => false
  | .ok info => decide (info.status = some (str "PENDING") ∨ info.status = some (str "INSYNC"))

/-- The record value written by `create_dns_record`: TXT content is quoted. -/
def recordValue (record : DNSRecord) : Str :=
  if record.rtype = RecordType.TXT then '"' :: (record.content ++ ['"']) else record.content

/-- Step 1 of the weighted-routing injection of `create_dns_record`: an
explicit `data["weight"]` wins; otherwise, for non-TXT records only, a
numeric `ROUTE53_INITIAL_WEIGHT` environment value is used. -/
def determineWeight (record : DNSRecord) (envWeight : Option Str) : Option Int :=
  match record.dataWeight with
  | some w => some w
  | none =>
    if record.rtype ≠ RecordType.TXT then
      match envWeight with
      | some s => if pyIsDigit s then some (Int.ofNat (digitsToNat s)) else none
      | none => none
    else none

/-- Step 2: a set identifier is determined only when a weight was; an
explicit `data["set_identifier"]` wins, else `"auto-{unix seconds}"`. -/
def determineSetIdentifier (record : DNSRecord) (w : Option Int) (now : Nat) : Option Str :=
  match w with
  | none => none
  | some _ =>
    match record.dataSetIdentifier with
    | some s => some s
    | none => some (str "auto-" ++ natStr now)

/-- The resource record set built by `create_dns_record`; weight and set
identifier are attached only when the weight was determined and the
identifier is truthy (Python `if weight_to_set is not None and set_identifier`). -/
def buildResourceRecordSet (record : DNSRecord) (envWeight : Option Str) (now : Nat) : RRSet :=
  let base : RRSet :=
    { name := normalize_record_name record.name
      typ := record.rtype.val
      ttl := some record.ttl
      values := some [recordValue record]
      aliasDNSName := none
      weight := none
      setIdentifier := none }
  let w := determineWeight record envWeight
  match w, determineSetIdentifier record w now with
  | some wv, some sv =>
    if sv ≠ [] then { base with weight := some wv, setIdentifier := some sv } else base
  | _, _ => base

/-- `create_dns_record`: resolve the zone, build the record set, submit an
UPSERT change, and interpret the asynchronous change status. -/
def create_dns_record (record : DNSRecord) (cache : Cache) (zones : List RawZone)
    (envWeight : Option Str) (now : Nat) (submitResp : Except Str ChangeInfo) : OpResult :=
  let e := ensure_hosted_zone_id cache record.name zones
  match e.zoneId with
  | none => { ok := false, changes := [], cache := e.cache }
  | some zid =>
    if zid = [] then { ok := false, changes := [], cache := e.cache }
    else
      let rrset := buildResourceRecordSet record envWeight now
      { ok := changeOk submitResp
        changes := [{ action := str "UPSERT", rrset := rrset }]
        cache := e.cache }

/-- The match predicate of the delete lookup loop: name and type must be
equal, and when the parsed set identifier is truthy the record set's
`SetIdentifier` must equal it. -/
def deleteMatches (recordName recordType : Str) (sid : Option Str) (rs : RRSet) : Bool :=
  decide (rs.name = recordName) && decide (rs.typ = recordType) &&
    (match sid with
     | some s => if s ≠ [] then decide (rs.setIdentifier = some s) else true
     | none => true)

/-- `delete_dns_record`: resolve the zone, parse the composite id, re-list
the zone's record sets to find the exact record set, and submit a DELETE
change only on a hit. -/
def delete_dns_record (recordId : Str) (domain : Str) (cache : Cache) (zones : List RawZone)
    (listResp : Except Str (List RRSet)) (submitResp : Except Str ChangeInfo) : OpResult :=
  let e := ensure_hosted_zone_id cache domain zones
  match e.zoneId with
  | none => { ok := false, changes := [], cache := e.cache }
  | some zid =>
    if zid = [] then { ok := false, changes := [], cache := e.cache }
    else
      match parseRecordId recordId with
      | none => { ok := false, changes := [], cache := e.cache }
      | some (rname, rtype, sid) =>
        match listResp with
        | .error _ => { ok := false, changes := [], cache := e.cache }
        | .ok sets =>
          match sets.find? (deleteMatches rname rtype sid) with
          | none => { ok := false, changes := [], cache := e.cache }
          | some rs =>
            { ok := changeOk submitResp
              changes := [{ action := str "DELETE", rrset := rs }]
              cache := e.cache }

/-- The fixed issuer allow-list of `create_caa_record`. -/
def requiredIssuers : List Str :=
  [str "letsencrypt.org", str "amazon.com", str "amazontrust.com",
   str "awstrust.com", str "amazonaws.com"]

/-- The required CAA values: `"{flags} {tag} \x22{issuer}\x22"` for each
issuer of the allow-list. -/
def requiredValues (flags : Int) (tag : Str) : List Str :=
  requiredIssuers.map (fun issuer => intStr flags ++ ' ' :: (tag ++ ' ' :: '"' :: (issuer ++ ['"'])))

/-- The CAA merge of `create_caa_record`: keep all existing values, then
append each required value not already present by exact string equality. -/
def mergeValues (existing required : List Str) : List Str :=
  required.foldl (fun acc v => if v ∈ acc then acc else acc ++ [v]) existing

/-- The lookup of an existing apex CAA record set (first match by
name and type). -/
def apexCAAFind (sets : List RRSet) (normalized : Str) : Option RRSet :=
  sets.find? (fun rs => decide (rs.name = normalized) && decide (rs.typ = str "CAA"))

/-- Raw values of the existing apex CAA set, empty when there is none. -/
def apexExistingValues (sets : List RRSet) (normalized : Str) : List Str :=
  match apexCAAFind sets normalized with
  | some rs => rs.values.getD []
  | none => []

/-- TTL used for the merged set: the existing set's TTL when present, else
the caller-supplied TTL. -/
def apexTTL (sets : List RRSet) (normalized : Str) (dflt : Nat) : Nat :=
  match apexCAAFind sets normalized with
  | some rs => rs.ttl.getD dflt
  | none => dflt

/-- `create_caa_record`: resolve the zone, locate any existing apex CAA set,
merge its values with the required issuer values, and submit a full-set
UPSERT unless the merge is empty. -/
def create_caa_record (caaRecord : CAARecord) (cache : Cache) (zones : List RawZone)
    (listResp : Except Str (List RRSet)) (submitResp : Except Str ChangeInfo) : OpResult :=
  let e := ensure_hosted_zone_id cache caaRecord.name zones
  match e.zoneId with
  | none => { ok := false, changes := [], cache := e.cache }
  | some zid =>
    if zid = [] then { ok := false, changes := [], cache := e.cache }
    else
      match e.cache.2 with
      | none => { ok := false, changes := [], cache := e.cache }
      | some zname =>
        if zname = [] then { ok := false, changes := [], cache := e.cache }
        else
          let normalized := normalize_record_name zname
          let required := requiredValues caaRecord.flags caaRecord.tag
          match listResp with
          | .error _ => { ok := false, changes := [], cache := e.cache }
          | .ok sets =>
            let merged := mergeValues (apexExistingValues sets normalized) required
            if merged = [] then { ok := false, changes := [], cache := e.cache }
            else
              { ok := changeOk submitResp
                changes := [{ action := str "UPSERT"
                              rrset := { name := normalized
                                         typ := str "CAA"
                                         ttl := some (apexTTL sets normalized caaRecord.ttl)
                                         values := some merged
                                         aliasDNSName := none
                                         weight := none
                                         setIdentifier := none } }]
                cache := e.cache }

/-- Decoding of one listed record set in `get_dns_records`: name and type
filters first, then content extraction; `Except.error` marks the places
where the Python code raises inside the listing loop (indexing an empty
values list, a non-integer first CAA token, an unknown record type). -/
def decodeRRSet (origName normalized : Str) (rtFilter : Option RecordType) (rs : RRSet) :
    Except Unit (Option DNSRecord) :=
  if rs.name ≠ normalized then .ok none
  else
    let typeFiltered : Bool :=
      match rtFilter with
      | some rt => decide (rs.typ ≠ rt.val)
      | none => false
    if typeFiltered then .ok none
    else
      let caaStep : Except Unit (Str × Option Int × Option Str × Option Str) :=
        if rs.typ = str "CAA" then
          match rs.values with
          | some [] => .error ()
          | some (v :: _) =>
            let parts := pySplitSpace2 v
            if 3 ≤ parts.length then
              match pyInt (parts.headD []) with
              | none => .error ()
              | some flags =>
                .ok (v, some flags, some (parts.getD 1 []), some (pyStrip '"' (parts.getD 2 [])))
            else .ok ([], none, none, none)
          | none => .ok ([], none, none, none)
        else
          match rs.values with
          | some [] => .error ()
          | some (v :: _) =>
            .ok ((if rs.typ = str "TXT" then pyStrip '"' v else v), none, none, none)
          | none =>
            match rs.aliasDNSName with
            | some a => .ok (rstripDot a, none, none, none)
            | none => .ok ([], none, none, none)
      match caaStep with
      | .error e => .error e
      | .ok (content, fl, tg, vl) =>
        match RecordType.fromStr rs.typ with
        | none => .error ()
        | some rt =>
          .ok (some { id := makeRecordId rs.name rs.typ rs.setIdentifier
                      name := origName
                      rtype := rt
                      content := content
                      ttl := rs.ttl.getD 60
                      proxied := false
                      priority := none
                      dataWeight := rs.weight
                      dataSetIdentifier := rs.setIdentifier
                      dataFlags := fl
                      dataTag := tg
                      dataValue := vl })

/-- The listing loop of `get_dns_records`: any raise inside the loop aborts
the whole collection. -/
def collectRecords (origName normalized : Str) (rtFilter : Option RecordType) :
    List RRSet → Except Unit (List DNSRecord)
  | [] => .ok []
  | rs :: rest =>
    match decodeRRSet origName normalized rtFilter rs with
    | .error e => .error e
    | .ok ro =>
      match collectRecords origName normalized rtFilter rest with
      | .error e => .error e
      | .ok recs =>
        .ok (match ro with
             | some r => r :: recs
             | none => recs)

/-- `get_dns_records`: resolve the zone, list and decode the matching record
sets; every failure path returns the empty list. -/
def get_dns_records (name : Str) (rtFilter : Option RecordType) (cache : Cache)
    (zones : List RawZone) (listResp : Except Str (List RRSet)) : List DNSRecord × Cache :=
  let e := ensure_hosted_zone_id cache name zones
  match e.zoneId with
  | none => ([], e.cache)
  | some zid =>
    if zid = [] then ([], e.cache)
    else
      match listResp with
      | .error _ => ([], e.cache)
      | .ok sets =>
        match collectRecords name (normalize_record_name name) rtFilter sets with
        | .error _ => ([], e.cache)
        | .ok recs => (recs, e.cache)


/-
Concrete fixtures used by the witnesses and counterexamples.
-/

/-- A provider cache already holding zone `Z2` for `example.com`. -/
def cacheW : Cache := (some (str "Z2"), some (str "example.com"))

/-- A backend change response reporting status `PENDING`. -/
def okPending : Except Str ChangeInfo := Except.ok ⟨some (str "PENDING")⟩

/-- An all-empty record set, used as a `headD` default. -/
def emptyRRSet : RRSet := ⟨[], [], none, none, none, none, none⟩

/-- An empty change, used as a `headD` default. -/
def emptyChange : Change := ⟨[], emptyRRSet⟩

/-- A TXT record request without explicit routing data. -/
def recTXTW : DNSRecord :=
  { id := [], name := str "example.com", rtype := .TXT, content := str "abc123",
    ttl := 60, proxied := false, priority := none, dataWeight := none,
    dataSetIdentifier := none, dataFlags := none, dataTag := none, dataValue := none }

/-- An A record request without explicit routing data. -/
def recAW : DNSRecord :=
  { recTXTW with rtype := .A, content := str "1.2.3.4" }

/-- A TXT record request with an explicit weight in its data. -/
def recExplicitW : DNSRecord :=
  { recTXTW with dataWeight := some 7 }

/-- An existing apex CAA record set carrying an unrelated issuer value. -/
def caaSetW : RRSet :=
  ⟨str "example.com.", str "CAA", some 120, some [str "0 issue \"google.com\""],
   none, none, none⟩

/-- A concrete apex CAA request. -/
def caaReqW : CAARecord := ⟨str "example.com", 0, str "issue", 300⟩

/-- A zone listing whose single zone has a raw id ending in a slash, so the
extracted id (`Id.split("/")[-1]`) is the empty string. -/
def zonesC8 : List RawZone := [⟨str "hostedzone/", str "example.com."⟩]

/-- The three-zone listing of the spec's longest-suffix example. -/
def zonesC5 : List RawZone :=
  [⟨str "/hostedzone/Z1", str "com."⟩, ⟨str "/hostedzone/Z2", str "example.com."⟩,
   ⟨str "/hostedzone/Z3", str "sub.example.com."⟩]

/-- A well-formed TXT record set at `example.com.`. -/
def txtSetW : RRSet :=
  ⟨str "example.com.", str "TXT", some 60, some [str "\"abc\""], none, none, none⟩

/-- A CAA record set at `example.com.` whose first value has three
space-separated tokens but a non-integer first token. -/
def caaBadW : RRSet :=
  ⟨str "example.com.", str "CAA", some 300, some [str "x issue \"bad\""], none, none, none⟩

/-
Shared lemmas about the CAA merge.
-/

/-- The merge keeps the existing values as an initial segment and appends
only required values that were not already present. -/
theorem mergeFold_append (required : List Str) : ∀ existing : List Str,
    ∃ added, mergeValues existing required = existing ++ added ∧
      ∀ v ∈ added, v ∈ required ∧ v ∉ existing := by
  induction required with
  | nil =>
    intro existing
    exact ⟨[], by simp [mergeValues], by simp⟩
  | cons w ws ih =>
    intro existing
    by_cases hw : w ∈ existing
    · obtain ⟨added, h1, h2⟩ := ih existing
      refine ⟨added, ?_, ?_⟩
      · have hstep : mergeValues existing (w :: ws) = mergeValues existing ws := by
          simp only [mergeValues, List.foldl_cons, hw, if_true]
        rw [hstep, h1]
      · intro u hu
        exact ⟨List.mem_cons_of_mem _ (h2 u hu).1, (h2 u hu).2⟩
    · obtain ⟨added, h1, h2⟩ := ih (existing ++ [w])
      refine ⟨w :: added, ?_, ?_⟩
      · have hstep : mergeValues existing (w :: ws) = mergeValues (existing ++ [w]) ws := by
          simp only [mergeValues, List.foldl_cons, hw, if_false]
        rw [hstep, h1]
        simp
      · intro u hu
        rcases List.mem_cons.mp hu with rfl | hu'
        · exact ⟨List.mem_cons_self _ _, hw⟩
        · have h3 := h2 u hu'
          exact ⟨List.mem_cons_of_mem _ h3.1, fun hc => h3.2 (List.mem_append_left _ hc)⟩

/-- Existing values are members of the merge. -/
theorem mem_mergeValues_left (required existing : List Str) (v : Str) (h : v ∈ existing) :
    v ∈ mergeValues existing required := by
  obtain ⟨added, h1, _⟩ := mergeFold_append required existing
  rw [h1]
  exact List.mem_append_left _ h

/-- Required values are members of the merge. -/
theorem mem_mergeValues_right (required : List Str) : ∀ (existing : List Str) (v : Str),
    v ∈ required → v ∈ mergeValues existing required := by
  induction required with
  | nil => simp
  | cons w ws ih =>
    intro existing v hv
    have hstep : mergeValues existing (w :: ws)
        = mergeValues (if w ∈ existing then existing else existing ++ [w]) ws := by
      simp only [mergeValues, List.foldl_cons]
    rcases List.mem_cons.mp hv with rfl | hv'
    · rw [hstep]
      refine mem_mergeValues_left ws _ v ?_
      by_cases hw : v ∈ existing
      · simp [hw]
      · simp [hw]
    · rw [hstep]
      exact ih _ v hv'

/-- The merge is the identity when every required value is already present. -/
theorem mergeValues_eq_self (required : List Str) : ∀ existing : List Str,
    (∀ v ∈ required, v ∈ existing) → mergeValues existing required = existing := by
  induction required with
  | nil => intro existing _; rfl
  | cons w ws ih =>
    intro existing h
    have hw : w ∈ existing := h w (List.mem_cons_self _ _)
    have hstep : mergeValues existing (w :: ws) = mergeValues existing ws := by
      simp only [mergeValues, List.foldl_cons, hw, if_true]
    rw [hstep]
    exact ih existing (fun v hv => h v (List.mem_cons_of_mem _ hv))

/-- C1: every value of the existing apex CAA set appears in the merged list
submitted with the upsert: the merge keeps the existing values as an initial
segment (original insertion order), appends only required issuer values not
already present by exact string equality, and whenever `create_caa_record`
submits a change, that change carries exactly the merged value list, so the
full-set replacement never drops a pre-existing CAA value. -/
theorem caa_merge_never_drops_existing
    (existing : List Str) (flags : Int) (tag : Str)
    (req : CAARecord) (cache : Cache) (zones : List RawZone)
    (sets : List RRSet) (sresp : Except Str ChangeInfo) :
    (∃ added, mergeValues existing (requiredValues flags tag) = existing ++ added ∧
       ∀ v ∈ added, v ∈ requiredValues flags tag ∧ v ∉ existing) ∧
    (∀ v ∈ existing, v ∈ mergeValues existing (requiredValues flags tag)) ∧
    (∀ ch zname,
       (ensure_hosted_zone_id cache req.name zones).cache.2 = some zname →
       (create_caa_record req cache zones (Except.ok sets) sresp).changes = [ch] →
       ch.rrset.values = some (mergeValues
         (apexExistingValues sets (normalize_record_name zname))
         (requiredValues req.flags req.tag))) := by
  refine ⟨mergeFold_append _ existing,
          fun v hv => mem_mergeValues_left _ existing v hv, ?_⟩
  intro ch zname hzname hch
  unfold create_caa_record at hch
  dsimp only at hch
  split at hch
  · simp at hch
  · split at hch
    · simp at hch
    · split at hch
      · simp at hch
      · rename_i zn hzn
        rw [hzname] at hzn
        injection hzn with hzn
        subst hzn
        split at hch
        · simp at hch
        · split at hch
          · simp at hch
          · simp only [List.cons.injEq, and_true] at hch
            subst hch
            rfl

/-- C2: the CAA merge is idempotent — applying the merge with the fixed
required issuer values a second time to the result of the first application
yields exactly the same value list. -/
theorem caa_merge_idempotent (existing : List Str) (flags : Int) (tag : Str) :
    mergeValues (mergeValues existing (requiredValues flags tag)) (requiredValues flags tag)
      = mergeValues existing (requiredValues flags tag) :=
  mergeValues_eq_self _ _ (fun v hv => mem_mergeValues_right _ existing v hv)

/-- C9: the empty-merge abort branch is unreachable — the merged list always
contains all five formatted required issuer values and is therefore
non-empty, and whenever `create_caa_record` reaches the merge (zone resolved
to a truthy id and a truthy zone name, listing succeeded) it submits a
change rather than aborting with no CAA values. -/
theorem caa_empty_merge_unreachable
    (existing : List Str) (flags : Int) (tag : Str)
    (req : CAARecord) (cache : Cache) (zones : List RawZone)
    (sets : List RRSet) (sresp : Except Str ChangeInfo) :
    (∀ v ∈ requiredValues flags tag, v ∈ mergeValues existing (requiredValues flags tag)) ∧
    (requiredValues flags tag).length = 5 ∧
    mergeValues existing (requiredValues flags tag) ≠ [] ∧
    (∀ zid zname,
       (ensure_hosted_zone_id cache req.name zones).zoneId = some zid → zid ≠ [] →
       (ensure_hosted_zone_id cache req.name zones).cache.2 = some zname → zname ≠ [] →
       (create_caa_record req cache zones (Except.ok sets) sresp).changes ≠ []) := by
  have hmem : ∀ (ex : List Str) (f : Int) (t : Str),
      mergeValues ex (requiredValues f t) ≠ [] := by
    intro ex f t
    have h1 : intStr f ++ ' ' :: (t ++ ' ' :: '"' :: (str "letsencrypt.org" ++ ['"']))
        ∈ requiredValues f t := by
      simp [requiredValues, requiredIssuers]
    have h2 := mem_mergeValues_right (requiredValues f t) ex _ h1
    exact List.ne_nil_of_mem h2
  refine ⟨fun v hv => mem_mergeValues_right _ existing v hv,
          by simp [requiredValues, requiredIssuers], hmem existing flags tag, ?_⟩
  intro zid zname hzid hzidne hzname hznamene
  unfold create_caa_record
  dsimp only
  split
  · rename_i h
    rw [hzid] at h
    exact absurd h (by simp)
  · rename_i z h
    rw [hzid] at h
    injection h with h
    subst h
    rw [if_neg hzidne]
    split
    · rename_i h
      rw [hzname] at h
      exact absurd h (by simp)
    · rename_i zn h
      rw [hzname] at h
      injection h with h
      subst h
      rw [if_neg hznamene]
      rw [if_neg (hmem _ req.flags req.tag)]
      simp

/-
Fixtures for the concrete witnesses.
-/

/-- C3: creating a TXT record whose data carries no explicit weight submits
a record set with neither a Weight nor a SetIdentifier, whatever the
environment default weight; an explicit data weight always wins over the
environment value; and the numeric environment fallback does apply to
non-TXT records without an explicit weight. -/
theorem txt_weight_injection_excluded
    (record : DNSRecord) (cache : Cache) (zones : List RawZone)
    (envWeight : Option Str) (now : Nat) (sresp : Except Str ChangeInfo) :
    (record.rtype = RecordType.TXT → record.dataWeight = none →
       ∀ ch ∈ (create_dns_record record cache zones envWeight now sresp).changes,
         ch.rrset.weight = none ∧ ch.rrset.setIdentifier = none) ∧
    (∀ w, record.dataWeight = some w → determineWeight record envWeight = some w) ∧
    (record.rtype ≠ RecordType.TXT → record.dataWeight = none →
       ∀ s, envWeight = some s → pyIsDigit s = true →
         determineWeight record envWeight = some (Int.ofNat (digitsToNat s))) := by
  refine ⟨?_, ?_, ?_⟩
  · intro htxt hw ch hch
    have hdw : determineWeight record envWeight = none := by
      simp [determineWeight, hw, htxt]
    have hbuild : (buildResourceRecordSet record envWeight now).weight = none ∧
        (buildResourceRecordSet record envWeight now).setIdentifier = none := by
      simp [buildResourceRecordSet, hdw, determineSetIdentifier]
    unfold create_dns_record at hch
    dsimp only at hch
    split at hch
    · simp at hch
    · split at hch
      · simp at hch
      · simp only [List.mem_singleton] at hch
        subst hch
        exact hbuild
  · intro w hw
    simp [determineWeight, hw]
  · intro hnt hw s hs hdig
    simp [determineWeight, hw, hnt, hs, hdig]

/-- C3 witness: a concrete TXT create with a numeric environment weight set
submits no Weight/SetIdentifier; an explicit weight 7 wins; a concrete A
record without explicit weight picks up the environment value 5. -/
theorem txt_weight_injection_excluded_witness :
    (((create_dns_record recTXTW cacheW [] (some (str "5")) 1700000000
          okPending).changes.headD emptyChange).rrset.weight = none ∧
     ((create_dns_record recTXTW cacheW [] (some (str "5")) 1700000000
          okPending).changes.headD emptyChange).rrset.setIdentifier = none) ∧
    determineWeight recExplicitW (some (str "5")) = some 7 ∧
    determineWeight recAW (some (str "5")) = some 5 := by
  refine ⟨?_, ?_, ?_⟩
  · exact (txt_weight_injection_excluded recTXTW cacheW [] (some (str "5")) 1700000000
      okPending).1 rfl rfl _ (by decide)
  · exact (txt_weight_injection_excluded recExplicitW cacheW [] (some (str "5")) 1700000000
      okPending).2.1 7 rfl
  · exact (txt_weight_injection_excluded recAW cacheW [] (some (str "5")) 1700000000
      okPending).2.2 (by decide) rfl (str "5") rfl (by decide)

/-
Lemmas about splitting on a character, for the identifier round-trip.
-/

/-- Splitting a string that does not contain the separator is the identity. -/
theorem splitOnChar_not_mem (c : Char) (s : Str) : c ∉ s → splitOnChar c s = [s] := by
  induction s with
  | nil => intro _; rfl
  | cons a rest ih =>
    intro h
    have ha : ¬ (a = c) := fun hc => h (by rw [hc]; exact List.mem_cons_self _ _)
    have hrest : c ∉ rest := fun hc => h (List.mem_cons_of_mem _ hc)
    simp [splitOnChar, if_neg ha, ih hrest]

/-- Splitting peels off a separator-free first field. -/
theorem splitOnChar_append (c : Char) (b : Str) : ∀ a : Str, c ∉ a →
    splitOnChar c (a ++ c :: b) = a :: splitOnChar c b := by
  intro a
  induction a with
  | nil =>
    intro _
    simp [splitOnChar]
  | cons x xs ih =>
    intro h
    have hx : ¬ (x = c) := fun hc => h (by rw [hc]; exact List.mem_cons_self _ _)
    have hxs : c ∉ xs := fun hc => h (List.mem_cons_of_mem _ hc)
    simp [splitOnChar, if_neg hx, ih hxs]

/-- C4: synthetic identifiers round-trip — decoding the encoding of
`(name, type)` recovers `(name, type, none)`, decoding the encoding of a
routed `(name, type, setIdentifier)` recovers all three (the components
being free of the `:` separator, as the enumerated type strings and DNS
names are), and an id splitting into a field count other than 2 or 3
decodes to the invalid-id failure, on which delete returns false with no
change submitted. -/
theorem record_id_round_trip
    (name ty sid rid domain : Str) (cache : Cache) (zones : List RawZone)
    (lresp : Except Str (List RRSet)) (sresp : Except Str ChangeInfo) :
    (':' ∉ name → ':' ∉ ty →
       parseRecordId (makeRecordId name ty none) = some (name, ty, none)) ∧
    (':' ∉ name → ':' ∉ ty → ':' ∉ sid →
       parseRecordId (makeRecordId name ty (some sid)) = some (name, ty, some sid)) ∧
    ((splitOnChar ':' rid).length ≠ 2 → (splitOnChar ':' rid).length ≠ 3 →
       parseRecordId rid = none) ∧
    (parseRecordId rid = none →
       (delete_dns_record rid domain cache zones lresp sresp).ok = false ∧
       (delete_dns_record rid domain cache zones lresp sresp).changes = []) := by
  refine ⟨?_, ?_, ?_, ?_⟩
  · intro hn ht
    unfold makeRecordId parseRecordId
    rw [splitOnChar_append ':' ty name hn, splitOnChar_not_mem ':' ty ht]
  · intro hn ht hs
    unfold makeRecordId parseRecordId
    dsimp only
    have : (name ++ ':' :: ty) ++ ':' :: sid = name ++ ':' :: (ty ++ ':' :: sid) := by
      simp
    rw [this, splitOnChar_append ':' (ty ++ ':' :: sid) name hn,
      splitOnChar_append ':' sid ty ht, splitOnChar_not_mem ':' sid hs]
  · intro h2 h3
    unfold parseRecordId
    rcases hl : splitOnChar ':' rid with _ | ⟨x, _ | ⟨y, _ | ⟨z, _ | ⟨w, t⟩⟩⟩⟩
    · rfl
    · rfl
    · exact absurd (by rw [hl]; rfl) h2
    · exact absurd (by rw [hl]; rfl) h3
    · rfl
  · intro hbad
    unfold delete_dns_record
    dsimp only
    split
    · exact ⟨rfl, rfl⟩
    · split
      · exact ⟨rfl, rfl⟩
      · rw [hbad]
        exact ⟨rfl, rfl⟩

/-- C4 witness: concrete round-trips and a concrete malformed id. -/
theorem record_id_round_trip_witness :
    parseRecordId (makeRecordId (str "a.example.com.") (str "TXT") none)
      = some (str "a.example.com.", str "TXT", none) ∧
    parseRecordId (makeRecordId (str "a.example.com.") (str "A") (some (str "auto-7")))
      = some (str "a.example.com.", str "A", some (str "auto-7")) ∧
    parseRecordId (str "a:b:c:d") = none ∧
    ((delete_dns_record (str "a:b:c:d") (str "example.com") cacheW [] (Except.ok [])
        okPending).ok = false ∧
     (delete_dns_record (str "a:b:c:d") (str "example.com") cacheW [] (Except.ok [])
        okPending).changes = []) := by
  have h := record_id_round_trip (str "a.example.com.") (str "TXT") (str "auto-7")
    (str "a:b:c:d") (str "example.com") cacheW [] (Except.ok []) okPending
  have h2 := record_id_round_trip (str "a.example.com.") (str "A") (str "auto-7")
    (str "a:b:c:d") (str "example.com") cacheW [] (Except.ok []) okPending
  refine ⟨h.1 (by decide) (by decide), h2.2.1 (by decide) (by decide) (by decide),
    h.2.2.1 (by decide) (by decide), h.2.2.2 (h.2.2.1 (by decide) (by decide))⟩

/-- C6: delete is side-effect free on a miss — for a well-formed record id,
when no record set of the zone's listing matches the decoded name, type and
(when truthy) set identifier, delete returns failure and submits no change
request. -/
theorem delete_miss_no_side_effects
    (recordId domain : Str) (cache : Cache) (zones : List RawZone)
    (sets : List RRSet) (sresp : Except Str ChangeInfo)
    (rname rtype : Str) (sid : Option Str)
    (hparse : parseRecordId recordId = some (rname, rtype, sid))
    (hmiss : ∀ rs ∈ sets, deleteMatches rname rtype sid rs = false) :
    (delete_dns_record recordId domain cache zones (Except.ok sets) sresp).ok = false ∧
    (delete_dns_record recordId domain cache zones (Except.ok sets) sresp).changes = [] := by
  have hfind : sets.find? (deleteMatches rname rtype sid) = none :=
    List.find?_eq_none.mpr (fun rs hrs => by simp [hmiss rs hrs])
  unfold delete_dns_record
  dsimp only
  split
  · exact ⟨rfl, rfl⟩
  · split
    · exact ⟨rfl, rfl⟩
    · rw [hparse]
      dsimp only
      rw [hfind]
      exact ⟨rfl, rfl⟩

/-- C6 witness: deleting a well-formed id against a zone listing with no
matching record set fails and submits nothing. -/
theorem delete_miss_no_side_effects_witness :
    (delete_dns_record (str "a.example.com.:TXT") (str "a.example.com") cacheW []
       (Except.ok [⟨str "b.example.com.", str "TXT", some 60, some [str "\"x\""],
          none, none, none⟩]) okPending).ok = false ∧
    (delete_dns_record (str "a.example.com.:TXT") (str "a.example.com") cacheW []
       (Except.ok [⟨str "b.example.com.", str "TXT", some 60, some [str "\"x\""],
          none, none, none⟩]) okPending).changes = [] := by
  exact delete_miss_no_side_effects (str "a.example.com.:TXT") (str "a.example.com")
    cacheW [] [⟨str "b.example.com.", str "TXT", some 60, some [str "\"x\""], none, none, none⟩]
    okPending (str "a.example.com.") (str "TXT") none (by decide) (by decide)

/-- C7: for each write operation that actually submitted a change, the
returned boolean equals the change-status interpretation, which is true
exactly on PENDING or INSYNC and false when the submission raised; and a
raise while re-listing record sets in delete or CAA merge is also caught
and converted into a false return. -/
theorem write_status_and_exception_policy
    (record : DNSRecord) (caaReq : CAARecord) (recordId domain : Str)
    (cache1 cache2 cache3 : Cache) (zones1 zones2 zones3 : List RawZone)
    (envWeight : Option Str) (now : Nat)
    (lresp2 lresp3 : Except Str (List RRSet))
    (sresp1 sresp2 sresp3 : Except Str ChangeInfo) :
    ((create_dns_record record cache1 zones1 envWeight now sresp1).changes ≠ [] →
       (create_dns_record record cache1 zones1 envWeight now sresp1).ok = changeOk sresp1) ∧
    ((delete_dns_record recordId domain cache2 zones2 lresp2 sresp2).changes ≠ [] →
       (delete_dns_record recordId domain cache2 zones2 lresp2 sresp2).ok = changeOk sresp2) ∧
    ((create_caa_record caaReq cache3 zones3 lresp3 sresp3).changes ≠ [] →
       (create_caa_record caaReq cache3 zones3 lresp3 sresp3).ok = changeOk sresp3) ∧
    (∀ e, changeOk (Except.error e) = false) ∧
    (∀ info, changeOk (Except.ok info) = true ↔
       (info.status = some (str "PENDING") ∨ info.status = some (str "INSYNC"))) ∧
    (∀ e, lresp2 = Except.error e →
       (delete_dns_record recordId domain cache2 zones2 lresp2 sresp2).ok = false) ∧
    (∀ e, lresp3 = Except.error e →
       (create_caa_record caaReq cache3 zones3 lresp3 sresp3).ok = false) := by
  refine ⟨?_, ?_, ?_, fun e => rfl, fun info => by simp [changeOk], ?_, ?_⟩
  · intro h
    unfold create_dns_record at h ⊢
    dsimp only at h ⊢
    split at h
    · exact absurd rfl h
    · split at h
      · exact absurd rfl h
      · simp_all
  · intro h
    unfold delete_dns_record at h ⊢
    dsimp only at h ⊢
    split at h
    · exact absurd rfl h
    · split at h
      · exact absurd rfl h
      · split at h
        · exact absurd rfl h
        · split at h
          · exact absurd rfl h
          · split at h
            · exact absurd rfl h
            · simp_all
  · intro h
    unfold create_caa_record at h ⊢
    dsimp only at h ⊢
    split at h
    · exact absurd rfl h
    · split at h
      · exact absurd rfl h
      · split at h
        · exact absurd rfl h
        · split at h
          · exact absurd rfl h
          · split at h
            · exact absurd rfl h
            · split at h
              · exact absurd rfl h
              · simp_all
  · intro e he
    subst he
    unfold delete_dns_record
    dsimp only
    split
    · rfl
    · split
      · rfl
      · split
        · rfl
        · rfl
  · intro e he
    subst he
    unfold create_caa_record
    dsimp only
    split
    · rfl
    · split
      · rfl
      · split
        · rfl
        · split
          · rfl
          · rfl

/-- C7 witness: concrete submissions — a create whose backend reports
PENDING returns true, the same create with an unexpected status returns
false, and a delete whose listing raised returns false. -/
theorem write_status_and_exception_policy_witness :
    (create_dns_record recAW cacheW [] none 0 okPending).changes ≠ [] ∧
    (create_dns_record recAW cacheW [] none 0 okPending).ok = changeOk okPending ∧
    (create_dns_record recAW cacheW [] none 0
       (Except.ok ⟨some (str "FAILED")⟩)).ok = changeOk (Except.ok ⟨some (str "FAILED")⟩) ∧
    changeOk okPending = true ∧
    changeOk (Except.ok ⟨some (str "FAILED")⟩) = false ∧
    (delete_dns_record (str "a.example.com.:TXT") (str "a.example.com") cacheW []
       (Except.error (str "boom")) okPending).ok = false := by
  refine ⟨by decide, ?_, ?_, by decide, by decide, ?_⟩
  · exact (write_status_and_exception_policy recAW ⟨[], 0, [], 0⟩ [] [] cacheW cacheW cacheW
      [] [] [] none 0 (Except.ok []) (Except.ok []) okPending okPending okPending).1
      (by decide)
  · exact (write_status_and_exception_policy recAW ⟨[], 0, [], 0⟩ [] [] cacheW cacheW cacheW
      [] [] [] none 0 (Except.ok []) (Except.ok [])
      (Except.ok ⟨some (str "FAILED")⟩) okPending okPending).1 (by decide)
  · exact (write_status_and_exception_policy recAW ⟨[], 0, [], 0⟩
      (str "a.example.com.:TXT") (str "a.example.com") cacheW cacheW cacheW
      [] [] [] none 0 (Except.error (str "boom")) (Except.ok [])
      okPending okPending okPending).2.2.2.2.2.1 (str "boom") rfl

/-- C1 witness: the change submitted for a concrete apex merge carries
exactly the merged value list. -/
theorem caa_merge_never_drops_existing_witness :
    ((create_caa_record caaReqW cacheW [] (Except.ok [caaSetW]) okPending).changes.headD
        emptyChange).rrset.values
      = some (mergeValues
          (apexExistingValues [caaSetW] (normalize_record_name (str "example.com")))
          (requiredValues caaReqW.flags caaReqW.tag)) := by
  exact (caa_merge_never_drops_existing [] 0 (str "issue") caaReqW cacheW [] [caaSetW]
    okPending).2.2 _ (str "example.com") (by decide) (by decide)

/-- C9 witness: a concrete apex merge with no existing CAA set still
submits a change — the empty-merge abort does not fire. -/
theorem caa_empty_merge_unreachable_witness :
    (create_caa_record caaReqW cacheW [] (Except.ok []) okPending).changes ≠ [] := by
  exact (caa_empty_merge_unreachable [] 0 (str "issue") caaReqW cacheW [] [] okPending).2.2.2
    (str "Z2") (str "example.com") (by decide) (by decide) (by decide) (by decide)

/-- C8 counterexample: a resolution caches the pair (empty id,
"example.com"); the next resolution for exactly the cached zone name lists
the hosted zones again instead of reusing the cache, because the empty
cached id fails the Python truthiness guard. -/
theorem zone_cache_reuse_cex :
    (ensure_hosted_zone_id (none, none) (str "example.com") zonesC8).cache
      = (some [], some (str "example.com")) ∧
    (ensure_hosted_zone_id
        (ensure_hosted_zone_id (none, none) (str "example.com") zonesC8).cache
        (str "example.com") zonesC8).listedZones = true := by
  exact ⟨by decide, by decide⟩

/-- C8 amended: once a pair with non-empty zone id and zone name is cached,
every resolution for the cached zone or any subdomain of it returns the
cached id without listing the backend's zones and leaves the cache intact;
and the cache, once populated, is never cleared by any later resolution. -/
theorem zone_cache_reuse_amended
    (zid zname domain : Str) (zones : List RawZone) (a b : Str) :
    (zid ≠ [] → zname ≠ [] →
       (domain = zname ∨ strEndsWith domain ('.' :: zname) = true) →
       ensure_hosted_zone_id (some zid, some zname) domain zones
         = { zoneId := some zid, cache := (some zid, some zname), listedZones := false }) ∧
    (∃ a2 b2, (ensure_hosted_zone_id (some a, some b) domain zones).cache
       = (some a2, some b2)) := by
  constructor
  · intro h1 h2 h3
    have hcond : (decide (zid ≠ []) && decide (zname ≠ []) &&
        (decide (domain = zname) || strEndsWith domain ('.' :: zname))) = true := by
      rcases h3 with h3 | h3 <;> simp [h1, h2, h3]
    unfold ensure_hosted_zone_id
    dsimp only
    rw [if_pos hcond]
  · unfold ensure_hosted_zone_id
    dsimp only
    split
    · exact ⟨a, b, rfl⟩
    · split
      · exact ⟨_, _, rfl⟩
      · exact ⟨a, b, rfl⟩

/-- C8 witness: a concrete subdomain resolution against a populated cache
reuses the cached id without re-listing. -/
theorem zone_cache_reuse_amended_witness :
    ensure_hosted_zone_id (some (str "Z1"), some (str "example.com"))
        (str "a.example.com") []
      = { zoneId := some (str "Z1"),
          cache := (some (str "Z1"), some (str "example.com")),
          listedZones := false } := by
  exact (zone_cache_reuse_amended (str "Z1") (str "example.com") (str "a.example.com")
    [] [] []).1 (by decide) (by decide) (Or.inr (by decide))

/-
Lemmas about the zone scan loop.
-/

/-- When some zone's stripped name equals the domain, the scan returns an
exact match carrying the domain as zone name. -/
theorem zoneLoop_exact (domain : Str) : ∀ (zones : List RawZone) (best : Option (Str × Str)),
    (∃ z ∈ zones, domain = rstripDot z.name) →
    ∃ zid, zoneLoop domain zones best = .exactFound zid domain := by
  intro zones
  induction zones with
  | nil =>
    intro best h
    simp at h
  | cons z rest ih =>
    intro best h
    by_cases hz : domain = rstripDot z.name
    · refine ⟨lastSlashSeg z.id, ?_⟩
      simp only [zoneLoop, if_pos hz]
      rw [hz]
    · obtain ⟨z', hz', hd⟩ := h
      rcases List.mem_cons.mp hz' with rfl | hmem
      · exact absurd hd hz
      · by_cases hcond : strEndsWith domain ('.' :: rstripDot z.name) = true ∧
            bestLen best < (rstripDot z.name).length
        · have hrec := ih (some (lastSlashSeg z.id, rstripDot z.name)) ⟨z', hmem, hd⟩
          simpa [zoneLoop, if_neg hz, if_pos hcond] using hrec
        · have hrec := ih best ⟨z', hmem, hd⟩
          simpa [zoneLoop, if_neg hz, if_neg hcond] using hrec

/-- When no zone matches exactly or by suffix, the scan finishes with the
incoming best match unchanged. -/
theorem zoneLoop_no_match (domain : Str) : ∀ (zones : List RawZone) (best : Option (Str × Str)),
    (∀ z ∈ zones, domain ≠ rstripDot z.name ∧
       strEndsWith domain ('.' :: rstripDot z.name) = false) →
    zoneLoop domain zones best = .finished best := by
  intro zones
  induction zones with
  | nil =>
    intro best _
    rfl
  | cons z rest ih =>
    intro best h
    have hz := h z (List.mem_cons_self _ _)
    have hcond : ¬ (strEndsWith domain ('.' :: rstripDot z.name) = true ∧
        bestLen best < (rstripDot z.name).length) := by
      intro hc
      rw [hz.2] at hc
      exact Bool.false_ne_true hc.1
    simp only [zoneLoop, if_neg hz.1, if_neg hcond]
    exact ih best (fun z' h' => h z' (List.mem_cons_of_mem _ h'))

/-- Invariant of the scan when no zone matches exactly: the final best is
either the incoming one or a suffix-matching zone of the listing, its name
length never decreases, and it dominates the length of every
suffix-matching zone of the listing. -/
theorem zoneLoop_no_exact (domain : Str) : ∀ (zones : List RawZone) (best : Option (Str × Str)),
    (∀ z ∈ zones, domain ≠ rstripDot z.name) →
    ∃ b, zoneLoop domain zones best = .finished b ∧
      (b = best ∨ ∃ z ∈ zones, b = some (lastSlashSeg z.id, rstripDot z.name) ∧
         strEndsWith domain ('.' :: rstripDot z.name) = true) ∧
      bestLen best ≤ bestLen b ∧
      (∀ z ∈ zones, strEndsWith domain ('.' :: rstripDot z.name) = true →
         (rstripDot z.name).length ≤ bestLen b) := by
  intro zones
  induction zones with
  | nil =>
    intro best _
    exact ⟨best, rfl, Or.inl rfl, le_refl _, by simp⟩
  | cons z rest ih =>
    intro best hne
    have hz : domain ≠ rstripDot z.name := hne z (List.mem_cons_self _ _)
    have hne' : ∀ z' ∈ rest, domain ≠ rstripDot z'.name :=
      fun z' h' => hne z' (List.mem_cons_of_mem _ h')
    by_cases hcond : strEndsWith domain ('.' :: rstripDot z.name) = true ∧
        bestLen best < (rstripDot z.name).length
    · obtain ⟨b, hb, hdisj, hle, hmax⟩ := ih (some (lastSlashSeg z.id, rstripDot z.name)) hne'
      refine ⟨b, ?_, ?_, ?_, ?_⟩
      · simp only [zoneLoop, if_neg hz, if_pos hcond]
        exact hb
      · rcases hdisj with rfl | ⟨z', hz', hprop⟩
        · exact Or.inr ⟨z, List.mem_cons_self _ _, rfl, hcond.1⟩
        · exact Or.inr ⟨z', List.mem_cons_of_mem _ hz', hprop⟩
      · exact le_trans (le_of_lt hcond.2) hle
      · intro z' hz'mem hsuf
        rcases List.mem_cons.mp hz'mem with rfl | hmem
        · exact hle
        · exact hmax z' hmem hsuf
    · obtain ⟨b, hb, hdisj, hle, hmax⟩ := ih best hne'
      refine ⟨b, ?_, ?_, hle, ?_⟩
      · simp only [zoneLoop, if_neg hz, if_neg hcond]
        exact hb
      · rcases hdisj with rfl | ⟨z', hz', hprop⟩
        · exact Or.inl rfl
        · exact Or.inr ⟨z', List.mem_cons_of_mem _ hz', hprop⟩
      · intro z' hz'mem hsuf
        rcases List.mem_cons.mp hz'mem with rfl | hmem
        · have hnlt : ¬ bestLen best < (rstripDot z'.name).length :=
            fun hlt => hcond ⟨hsuf, hlt⟩
          exact le_trans (Nat.le_of_not_lt hnlt) hle
        · exact hmax z' hmem hsuf

/-- C5 counterexample: a zone whose name strips to the empty string
suffix-matches the domain in the claim's sense (the domain ends with
"." + zoneName), there is no exact match, yet resolution returns no zone. -/
theorem longest_suffix_zone_match_cex :
    strEndsWith (str "x.") ('.' :: rstripDot (str ".")) = true ∧
    (str "x.") ≠ rstripDot (str ".") ∧
    get_hosted_zone_info (str "x.") [⟨str "ZDOT", str "."⟩] = none := by
  exact ⟨by decide, by decide, by decide⟩

/-- C5 amended: an exact match is returned immediately; with no exact
match, among the suffix-matching zones the one with the longest name is
returned, provided zone names do not strip to the empty string (such zones
are never selected) and extracted zone ids are non-empty (an empty winning
id yields NotFound); with no match at all, no zone is returned; and the
spec's concrete example resolves to `sub.example.com`. -/
theorem zone_resolution_longest_suffix_amended (domain : Str) (zones : List RawZone) :
    ((∃ z ∈ zones, domain = rstripDot z.name) →
       ∃ zid, get_hosted_zone_info domain zones = some (zid, domain)) ∧
    ((∀ z ∈ zones, domain ≠ rstripDot z.name) →
     (∀ z ∈ zones, lastSlashSeg z.id ≠ []) →
     ∀ z0 ∈ zones, strEndsWith domain ('.' :: rstripDot z0.name) = true →
       rstripDot z0.name ≠ [] →
       ∃ zid zname, get_hosted_zone_info domain zones = some (zid, zname) ∧
         strEndsWith domain ('.' :: zname) = true ∧
         (∃ z1 ∈ zones, zname = rstripDot z1.name ∧ zid = lastSlashSeg z1.id) ∧
         (∀ z' ∈ zones, strEndsWith domain ('.' :: rstripDot z'.name) = true →
            (rstripDot z'.name).length ≤ zname.length)) ∧
    ((∀ z ∈ zones, domain ≠ rstripDot z.name ∧
        strEndsWith domain ('.' :: rstripDot z.name) = false) →
       get_hosted_zone_info domain zones = none) ∧
    get_hosted_zone_info (str "a.sub.example.com")
      [⟨str "/hostedzone/Z1", str "com."⟩, ⟨str "/hostedzone/Z2", str "example.com."⟩,
       ⟨str "/hostedzone/Z3", str "sub.example.com."⟩]
      = some (str "Z3", str "sub.example.com") := by
  refine ⟨?_, ?_, ?_, by decide⟩
  · intro h
    obtain ⟨zid, hz⟩ := zoneLoop_exact domain zones none h
    refine ⟨zid, ?_⟩
    unfold get_hosted_zone_info
    rw [hz]
  · intro hne hids z0 hz0 hsuf0 hname0
    obtain ⟨b, hb, hdisj, hle, hmax⟩ := zoneLoop_no_exact domain zones none hne
    have hbpos : 0 < bestLen b :=
      lt_of_lt_of_le (List.length_pos.mpr hname0) (hmax z0 hz0 hsuf0)
    rcases hdisj with rfl | ⟨z1, hz1, hbeq, hsuf1⟩
    · simp [bestLen] at hbpos
    · subst hbeq
      refine ⟨lastSlashSeg z1.id, rstripDot z1.name, ?_, hsuf1, ⟨z1, hz1, rfl, rfl⟩, ?_⟩
      · unfold get_hosted_zone_info
        rw [hb]
        dsimp only
        rw [if_neg (hids z1 hz1)]
      · intro z' hz' hsuf'
        exact hmax z' hz' hsuf'
  · intro h
    have hloop := zoneLoop_no_match domain zones none h
    unfold get_hosted_zone_info
    rw [hloop]

/-- C5 witness: the longest-suffix selection on the spec's example. -/
theorem zone_resolution_longest_suffix_amended_witness :
    ∃ zid zname, get_hosted_zone_info (str "a.sub.example.com") zonesC5
        = some (zid, zname) ∧
      strEndsWith (str "a.sub.example.com") ('.' :: zname) = true ∧
      (∃ z1 ∈ zonesC5, zname = rstripDot z1.name ∧ zid = lastSlashSeg z1.id) ∧
      (∀ z' ∈ zonesC5, strEndsWith (str "a.sub.example.com")
          ('.' :: rstripDot z'.name) = true →
        (rstripDot z'.name).length ≤ zname.length) := by
  exact (zone_resolution_longest_suffix_amended (str "a.sub.example.com") zonesC5).2.1
    (by decide) (by decide) ⟨str "/hostedzone/Z3", str "sub.example.com."⟩
    (by decide) (by decide) (by decide)

/-
Lemmas for the malformed-CAA poisoning of the record listing.
-/

/-- Decoding a CAA record set at the queried name that survives the type
filter, whose first value has at least three space-separated tokens with a
non-integer first token, raises (the `int()` conversion fails). -/
theorem decodeRRSet_malformedCAA (origName : Str) (rtFilter : Option RecordType)
    (rs : RRSet) (v : Str) (vs : List Str)
    (hname : rs.name = normalize_record_name origName)
    (htyp : rs.typ = str "CAA")
    (hfilter : rtFilter = none ∨ rtFilter = some RecordType.CAA)
    (hvals : rs.values = some (v :: vs))
    (hlen : 3 ≤ (pySplitSpace2 v).length)
    (hint : pyInt ((pySplitSpace2 v).headD []) = none) :
    decodeRRSet origName (normalize_record_name origName) rtFilter rs = .error () := by
  rw [List.headD_eq_head?] at hint
  rcases hfilter with rfl | rfl
  · simp [decodeRRSet, hname, htyp, hvals, hlen, hint]
  · simp [decodeRRSet, hname, htyp, hvals, hlen, hint, RecordType.val]

/-- A raise while decoding any listed record set aborts the whole
collection with that raise. -/
theorem collectRecords_error (origName normalized : Str) (rtFilter : Option RecordType) :
    ∀ (sets : List RRSet) (rs : RRSet), rs ∈ sets →
      decodeRRSet origName normalized rtFilter rs = .error () →
      collectRecords origName normalized rtFilter sets = .error () := by
  intro sets
  induction sets with
  | nil =>
    intro rs h _
    simp at h
  | cons s rest ih =>
    intro rs hmem herr
    rcases List.mem_cons.mp hmem with rfl | hmem'
    · simp only [collectRecords, herr]
    · simp only [collectRecords]
      cases hdec : decodeRRSet origName normalized rtFilter s with
      | error e =>
        cases e
        rfl
      | ok ro =>
        rw [ih rs hmem' herr]

/-- C10 counterexample: with a TXT type filter, a malformed CAA set at the
queried name is skipped by the type filter before parsing, so
`get_dns_records` returns the decoded TXT record instead of the empty
list the claim requires. -/
theorem malformed_caa_poisons_listing_cex :
    caaBadW.name = normalize_record_name (str "example.com") ∧
    caaBadW.typ = str "CAA" ∧
    caaBadW.values = some [str "x issue \"bad\""] ∧
    3 ≤ (pySplitSpace2 (str "x issue \"bad\"")).length ∧
    pyInt ((pySplitSpace2 (str "x issue \"bad\"")).headD []) = none ∧
    (get_dns_records (str "example.com") (some RecordType.TXT) cacheW []
        (Except.ok [txtSetW, caaBadW])).1
      = [{ id := str "example.com.:TXT", name := str "example.com",
           rtype := RecordType.TXT, content := str "abc", ttl := 60, proxied := false,
           priority := none, dataWeight := none, dataSetIdentifier := none,
           dataFlags := none, dataTag := none, dataValue := none }] := by
  exact ⟨by decide, by decide, by decide, by decide, by decide, by decide⟩

/-- C10 amended: when the malformed CAA set at the queried name also passes
the type filter (no filter, or a CAA filter), the integer-conversion raise
is caught by the operation-wide handler and `get_dns_records` returns the
empty list, discarding every record already decoded in that call. -/
theorem malformed_caa_poisons_listing_amended
    (name : Str) (rtFilter : Option RecordType) (cache : Cache) (zones : List RawZone)
    (sets : List RRSet) (rs : RRSet) (v : Str) (vs : List Str)
    (hmem : rs ∈ sets)
    (hname : rs.name = normalize_record_name name)
    (htyp : rs.typ = str "CAA")
    (hfilter : rtFilter = none ∨ rtFilter = some RecordType.CAA)
    (hvals : rs.values = some (v :: vs))
    (hlen : 3 ≤ (pySplitSpace2 v).length)
    (hint : pyInt ((pySplitSpace2 v).headD []) = none) :
    (get_dns_records name rtFilter cache zones (Except.ok sets)).1 = [] := by
  have hdec := decodeRRSet_malformedCAA name rtFilter rs v vs hname htyp hfilter hvals hlen hint
  have hcol := collectRecords_error name (normalize_record_name name) rtFilter sets rs hmem hdec
  unfold get_dns_records
  dsimp only
  split
  · rfl
  · split
    · rfl
    · rw [hcol]

/-- C10 witness: with no type filter the same malformed CAA set empties the
whole listing, the good TXT record included. -/
theorem malformed_caa_poisons_listing_amended_witness :
    (get_dns_records (str "example.com") none cacheW []
        (Except.ok [txtSetW, caaBadW])).1 = [] := by
  exact malformed_caa_poisons_listing_amended (str "example.com") none cacheW []
    [txtSetW, caaBadW] caaBadW (str "x issue \"bad\"") []
    (by decide) (by decide) (by decide) (Or.inl rfl) (by decide) (by decide) (by decide)

end Route53
